import Mathlib

/-!
Verification of the main service of `strapi-plugin-config-sync`
(`src/services/main.js`) against its natural-language specification.

The JavaScript module is shallowly embedded: the Strapi plugin configuration
object (`strapi.plugins['config-sync'].config`) becomes a `Policy` record, the
destination directory of the file store becomes an `FS` record holding the
files of that directory as an association list from file name to raw file
contents, JSON values become the inductive type `Json`, and the per-type
database providers become a function from type name to that provider's
database snapshot.  Asynchronous functions that can reject are embedded as
functions into `Except String _`; functions whose rejections are all caught
are embedded as total functions.  Side effects (file writes, provider calls)
are returned explicitly: file operations return the updated `FS`, and import
operations return the list of provider invocations they perform.
-/

set_option autoImplicit false

namespace ConfigSync

/-- A JSON value. Numbers are modelled as integers: no claim about this
module concerns non-integer numeric content, and JavaScript float formatting
is outside the scope of the embedding. -/
inductive Json where
  | null : Json
  | bool : Bool → Json
  | num : Int → Json
  | str : String → Json
  | arr : List Json → Json
  | obj : List (String × Json) → Json

mutual

/-- Structural equality test on JSON values, the model of the deep
structural equality used by the Diff Engine. -/
def beqJson : Json → Json → Bool
  | Json.null, Json.null => true
  | Json.bool a, Json.bool b => a == b
  | Json.num a, Json.num b => a == b
  | Json.str a, Json.str b => a == b
  | Json.arr a, Json.arr b => beqListJson a b
  | Json.obj a, Json.obj b => beqFieldsJson a b
  | _, _ => false

/-- Elementwise structural equality test on JSON arrays. -/
def beqListJson : List Json → List Json → Bool
  | [], [] => true
  | a :: as, b :: bs => beqJson a b && beqListJson as bs
  | _, _ => false

/-- Fieldwise structural equality test on JSON objects. -/
def beqFieldsJson : List (String × Json) → List (String × Json) → Bool
  | [], [] => true
  | a :: as, b :: bs => (a.1 == b.1 && beqJson a.2 b.2) && beqFieldsJson as bs
  | _, _ => false

end

/-- Escape one character of a JSON string literal, as `JSON.stringify` does
for the common escapes. -/
def escChar (c : Char) : List Char :=
  if c = '"' then ['\\', '"']
  else if c = '\\' then ['\\', '\\']
  else if c = '\n' then ['\\', 'n']
  else if c = '\t' then ['\\', 't']
  else if c = '\r' then ['\\', 'r']
  else [c]

/-- Quote and escape a string, as `JSON.stringify` renders string values. -/
def Json.quote (s : String) : String :=
  ⟨'"' :: s.data.foldr (fun c acc => escChar c ++ acc) ['"']⟩

mutual

/-- Compact serialization, the embedding of `JSON.stringify(v)` with no
indent argument. -/
def stringifyCompact : Json → String
  | Json.null => "null"
  | Json.bool b => if b then "true" else "false"
  | Json.num n => toString n
  | Json.str s => Json.quote s
  | Json.arr xs => "[" ++ String.intercalate "," (stringifyListC xs) ++ "]"
  | Json.obj fields => "\x7b" ++ String.intercalate "," (stringifyFieldsC fields) ++ "\x7d"

/-- Compact serialization of the elements of a JSON array. -/
def stringifyListC : List Json → List String
  | [] => []
  | x :: xs => stringifyCompact x :: stringifyListC xs

/-- Compact serialization of the fields of a JSON object. -/
def stringifyFieldsC : List (String × Json) → List String
  | [] => []
  | kv :: fields => (Json.quote kv.1 ++ ":" ++ stringifyCompact kv.2) :: stringifyFieldsC fields

end

/-- Indentation of `d` levels of two spaces each, as produced by
`JSON.stringify(v, null, 2)`. -/
def indentPad (d : Nat) : String :=
  ⟨List.replicate (2 * d) ' '⟩

mutual

/-- Pretty serialization at nesting depth `depth`, the embedding of
`JSON.stringify(v, null, 2)` (two-space indent). -/
def stringifyP (depth : Nat) : Json → String
  | Json.null => "null"
  | Json.bool b => if b then "true" else "false"
  | Json.num n => toString n
  | Json.str s => Json.quote s
  | Json.arr [] => "[]"
  | Json.arr (x :: xs) =>
      "[\n" ++ String.intercalate ",\n" (stringifyListP (depth + 1) (x :: xs)) ++
        "\n" ++ indentPad depth ++ "]"
  | Json.obj [] => "\x7b\x7d"
  | Json.obj (kv :: fields) =>
      "\x7b\n" ++ String.intercalate ",\n" (stringifyFieldsP (depth + 1) (kv :: fields)) ++
        "\n" ++ indentPad depth ++ "\x7d"

/-- Pretty serialization of the elements of a JSON array, one indented line
per element. -/
def stringifyListP (depth : Nat) : List Json → List String
  | [] => []
  | x :: xs => (indentPad depth ++ stringifyP depth x) :: stringifyListP depth xs

/-- Pretty serialization of the fields of a JSON object, one indented
`"key": value` line per field. -/
def stringifyFieldsP (depth : Nat) : List (String × Json) → List String
  | [] => []
  | kv :: fields =>
      (indentPad depth ++ Json.quote kv.1 ++ ": " ++ stringifyP depth kv.2) ::
        stringifyFieldsP depth fields

end

/-- Pretty serialization at top level: `JSON.stringify(v, null, 2)`. -/
def stringifyPretty (v : Json) : String :=
  stringifyP 0 v

/-- Drop leading JSON whitespace from a character list. -/
def skipWsCL : List Char → List Char
  | [] => []
  | c :: cs => if c = ' ' || c = '\n' || c = '\t' || c = '\r' then skipWsCL cs else c :: cs

/-- Whether a character is a decimal digit. -/
def isDig (c : Char) : Bool :=
  48 ≤ c.toNat && c.toNat ≤ 57

/-- Split a character list into its longest decimal-digit prefix and the
rest. -/
def takeDigits : List Char → (List Char × List Char)
  | [] => ([], [])
  | c :: cs =>
    if isDig c then
      let p := takeDigits cs
      (c :: p.1, p.2)
    else ([], c :: cs)

/-- Numeric value of a decimal-digit character list. -/
def natOfDigits (l : List Char) : Nat :=
  l.foldl (fun a c => a * 10 + (c.toNat - 48)) 0

/-- Parse a JSON integer numeral (an optional minus sign and digits); JSON
fractions and exponents are outside the integer-numeral scope of the model
and make the parse fail, which `readConfigFile` turns into `null`. -/
def parseNum : List Char → Option (Json × List Char)
  | '-' :: cs =>
    let p := takeDigits cs
    if p.1 = [] then none
    else match p.2 with
      | '.' :: _ => none
      | 'e' :: _ => none
      | 'E' :: _ => none
      | r => some (Json.num (-(natOfDigits p.1 : Int)), r)
  | cs =>
    let p := takeDigits cs
    if p.1 = [] then none
    else match p.2 with
      | '.' :: _ => none
      | 'e' :: _ => none
      | 'E' :: _ => none
      | r => some (Json.num (natOfDigits p.1 : Int), r)

/-- Numeric value of a hexadecimal-digit character, if any. -/
def hexVal (c : Char) : Option Nat :=
  if 48 ≤ c.toNat ∧ c.toNat ≤ 57 then some (c.toNat - 48)
  else if 97 ≤ c.toNat ∧ c.toNat ≤ 102 then some (c.toNat - 87)
  else if 65 ≤ c.toNat ∧ c.toNat ≤ 70 then some (c.toNat - 55)
  else none

/-- Parse the characters of a JSON string literal after the opening quote,
handling the escape sequences, up to and including the closing quote. -/
def parseStrChars : List Char → Option (List Char × List Char)
  | [] => none
  | '"' :: rest => some ([], rest)
  | '\\' :: 'u' :: h1 :: h2 :: h3 :: h4 :: rest =>
    match hexVal h1, hexVal h2, hexVal h3, hexVal h4 with
    | some a, some b, some c, some d =>
      (parseStrChars rest).map fun p =>
        (Char.ofNat (((a * 16 + b) * 16 + c) * 16 + d) :: p.1, p.2)
    | _, _, _, _ => none
  | '\\' :: e :: rest =>
    let ec : Option Char :=
      if e = '"' then some '"'
      else if e = '\\' then some '\\'
      else if e = '/' then some '/'
      else if e = 'n' then some '\n'
      else if e = 't' then some '\t'
      else if e = 'r' then some '\r'
      else if e = 'b' then some (Char.ofNat 8)
      else if e = 'f' then some (Char.ofNat 12)
      else none
    match ec with
    | some c => (parseStrChars rest).map fun p => (c :: p.1, p.2)
    | none => none
  | c :: rest => (parseStrChars rest).map fun p => (c :: p.1, p.2)

mutual

/-- Fuel-bounded recursive-descent parse of one JSON value. -/
def parseVal : Nat → List Char → Option (Json × List Char)
  | 0, _ => none
  | fuel + 1, cs =>
    match skipWsCL cs with
    | 'n' :: 'u' :: 'l' :: 'l' :: rest => some (Json.null, rest)
    | 't' :: 'r' :: 'u' :: 'e' :: rest => some (Json.bool true, rest)
    | 'f' :: 'a' :: 'l' :: 's' :: 'e' :: rest => some (Json.bool false, rest)
    | '"' :: rest => (parseStrChars rest).map fun p => (Json.str ⟨p.1⟩, p.2)
    | '[' :: rest =>
      (match skipWsCL rest with
       | ']' :: r2 => some (Json.arr [], r2)
       | r2 => (parseElems fuel r2).map fun p => (Json.arr p.1, p.2))
    | '\x7b' :: rest =>
      (match skipWsCL rest with
       | '\x7d' :: r2 => some (Json.obj [], r2)
       | r2 => (parseFields fuel r2).map fun p => (Json.obj p.1, p.2))
    | rest => parseNum rest

/-- Fuel-bounded parse of the comma-separated elements of a non-empty JSON
array, up to and including the closing bracket. -/
def parseElems : Nat → List Char → Option (List Json × List Char)
  | 0, _ => none
  | fuel + 1, cs =>
    (parseVal fuel cs).bind fun p =>
      match skipWsCL p.2 with
      | ',' :: r2 => (parseElems fuel r2).map fun q => (p.1 :: q.1, q.2)
      | ']' :: r2 => some ([p.1], r2)
      | _ => none

/-- Fuel-bounded parse of the comma-separated fields of a non-empty JSON
object, up to and including the closing brace. -/
def parseFields : Nat → List Char → Option (List (String × Json) × List Char)
  | 0, _ => none
  | fuel + 1, cs =>
    match skipWsCL cs with
    | '"' :: r =>
      (parseStrChars r).bind fun pk =>
        match skipWsCL pk.2 with
        | ':' :: r3 =>
          (parseVal fuel r3).bind fun pv =>
            match skipWsCL pv.2 with
            | ',' :: r5 => (parseFields fuel r5).map fun q => ((⟨pk.1⟩, pv.1) :: q.1, q.2)
            | '\x7d' :: r5 => some ([(⟨pk.1⟩, pv.1)], r5)
            | _ => none
        | _ => none
    | _ => none

end

/-- The embedding of `JSON.parse`: `none` models a thrown `SyntaxError`
(always caught by the callers in this module). -/
def Json.parse (s : String) : Option Json :=
  match parseVal (2 * s.length + 2) s.data with
  | some p => if skipWsCL p.2 = [] then some p.1 else none
  | none => none

/-- Look up a key in an association list (first match). -/
def lookupA {α : Type} : List (String × α) → String → Option α
  | [], _ => none
  | kv :: rest, key => if kv.1 = key then some kv.2 else lookupA rest key

/-- Insert or replace a key in an association list, keeping the original
position of an existing key, as assignment to a JavaScript object property
does. -/
def upsert {α : Type} : List (String × α) → String → α → List (String × α)
  | [], k, v => [(k, v)]
  | kv :: rest, k, v => if kv.1 = k then (k, v) :: rest else kv :: upsert rest k v

/-- Remove the entry of a key from an association list. -/
def eraseA {α : Type} : List (String × α) → String → List (String × α)
  | [], _ => []
  | kv :: rest, k => if kv.1 = k then rest else kv :: eraseA rest k

/-- The plugin configuration object `strapi.plugins['config-sync'].config`:
the list of included types, the list of excluded composite keys, the
destination directory path and the minify flag.  `include_` embeds the
`include` field (`include` is a Lean keyword). -/
structure Policy where
  include_ : List String
  exclude : List String
  destination : String
  minify : Bool

/-- The destination directory of the file store: whether the directory
exists, and its files as an association list from file name (the path
relative to `Policy.destination`, which every operation of the module uses
as a common prefix) to raw file contents. -/
structure FS where
  destExists : Bool
  files : List (String × String)

/-- The embedding of `configName.replace(/:/g, "#")` on one character. -/
def ech (c : Char) : Char :=
  if c = ':' then '#' else c

/-- The embedding of `configName.replace(/#/g, ":")` on one character. -/
def dch (c : Char) : Char :=
  if c = '#' then ':' else c

/-- Replace every `:` with `#`, as `writeConfigFile`, `deleteConfigFile` and
`readConfigFile` do to a config name before building the file path
(main.js lines 26, 62, 76). -/
def encodeName (s : String) : String :=
  ⟨s.data.map ech⟩

/-- Replace every `#` with `:`, as `getAllConfigFromFiles` does to the name
recovered from a file name (main.js line 109). -/
def decodeName (s : String) : String :=
  ⟨s.data.map dch⟩

/-- The embedding of `writeConfigFile` (main.js lines 20-48).  `writeOk`
is the outcome of the underlying `fs.writeFile` call; the `.catch(() => ..)`
handler swallows a failure, so the function resolves in both cases and the
directory creation performed before the write attempt is kept.  The result
is always `Except.ok`: the function has no uncaught rejection path. -/
def writeConfigFile (pol : Policy) (fs : FS) (writeOk : Bool)
    (configType configName : String) (fileContents : Json) : Except String FS :=
  if (configType ++ "." ++ configName) ∈ pol.exclude then Except.ok fs
  else
    let name := encodeName configName
    let json := if pol.minify = false then stringifyPretty fileContents
                else stringifyCompact fileContents
    let fs1 : FS := { fs with destExists := true }
    if writeOk then
      Except.ok { fs1 with files := upsert fs1.files (configType ++ "." ++ name ++ ".json") json }
    else Except.ok fs1

/-- The embedding of `deleteConfigFile` (main.js lines 56-65).  `configName`
is the composite key checked against the exclude list.  `unlinkOk` is the
outcome of the underlying `fs.unlinkSync` call (for example `false` when the
file is absent); a failed unlink throws with no handler, so the async
function rejects, embedded as `Except.error`. -/
def deleteConfigFile (pol : Policy) (fs : FS) (unlinkOk : Bool)
    (configName : String) : Except String FS :=
  if configName ∈ pol.exclude then Except.ok fs
  else
    let name := encodeName configName
    if unlinkOk then Except.ok { fs with files := eraseA fs.files (name ++ ".json") }
    else Except.error "unlink failed"

/-- The embedding of `readConfigFile` (main.js lines 74-86).  A missing file
rejects the `readFile` promise and a malformed file throws in `JSON.parse`
inside the `.then` handler; both land in the final `.catch`, which returns
`null`, so the function is total. -/
def readConfigFile (pol : Policy) (fs : FS) (configType configName : String) : Json :=
  let name := encodeName configName
  match lookupA fs.files (configType ++ "." ++ name ++ ".json") with
  | none => Json.null
  | some data =>
    match Json.parse data with
    | some v => v
    | none => Json.null

/-- Split a character list at every `.`, the embedding of
`file.split('.')` for the single-character separator used throughout the
module. -/
def splitDot : List Char → List (List Char)
  | [] => [[]]
  | c :: rest =>
    match splitDot rest with
    | [] => [[]]
    | seg :: segs => if c = '.' then [] :: seg :: segs else (c :: seg) :: segs

/-- String-level wrapper of `splitDot`. -/
def splitDotS (s : String) : List String :=
  (splitDot s.data).map fun l => ⟨l⟩

/-- The embedding of the file-name split of `getAllConfigFromFiles`
(main.js lines 105-106): the type is the part before the first dot, the name
is the part after the first dot with the final dot-separated segment (the
file extension) removed.  `none` models the `TypeError` thrown when the file
name has no dot followed by at least one character, in which case
`file.split(/\.(.+)/)[1]` is `undefined`. -/
def splitTypeName (file : String) : Option (String × String) :=
  match splitDotS file with
  | [] => none
  | [_] => none
  | t :: rest =>
    if rest = [""] then none
    else some (t, String.intercalate "." rest.dropLast)

/-- The filter of `getAllConfigFromFiles` (main.js lines 111-115): skip the
entry when a requested type does not match, when the type is not included,
or when the composite key built from the type and the raw (still encoded)
file-name segment is excluded. -/
def skipEntry (pol : Policy) (configType : Option String) (type name : String) : Bool :=
  (match configType with
   | some t => t != type
   | none => false)
  || !(decide (type ∈ pol.include_))
  || decide ((type ++ "." ++ name) ∈ pol.exclude)

/-- Process one directory entry of `getAllConfigFromFiles` (main.js lines
104-121): `none` models the thrown `TypeError` on a malformed file name,
`some none` a filtered-out entry, and `some (some kv)` the key-value pair
added to the result, keyed by the type and the decoded name. -/
def processFile (pol : Policy) (fs : FS) (configType : Option String)
    (file : String) : Option (Option (String × Json)) :=
  match splitTypeName file with
  | none => none
  | some tn =>
    if skipEntry pol configType tn.1 tn.2 then some none
    else some (some (tn.1 ++ "." ++ decodeName tn.2, readConfigFile pol fs tn.1 tn.2))

/-- Accumulate the directory entries of `getAllConfigFromFiles` into the
result object, in directory-listing order. -/
def configFilesGo (pol : Policy) (fs : FS) (configType : Option String) :
    List String → List (String × Json) → Except String (List (String × Json))
  | [], acc => Except.ok acc
  | file :: rest, acc =>
    match processFile pol fs configType file with
    | none => Except.error "TypeError"
    | some none => configFilesGo pol fs configType rest acc
    | some (some kv) => configFilesGo pol fs configType rest (upsert acc kv.1 kv.2)

/-- The embedding of `getAllConfigFromFiles` (main.js lines 94-127): an
absent destination directory yields the empty object, otherwise every listed
file is split, filtered and read. -/
def getAllConfigFromFiles (pol : Policy) (fs : FS) (configType : Option String) :
    Except String (List (String × Json)) :=
  if fs.destExists = false then Except.ok []
  else configFilesGo pol fs configType (fs.files.map Prod.fst) []

/-- The embedding of `Object.assign(target, source)`: copy every property of
`source` onto `target` in order, overwriting existing keys, and return the
updated target. -/
def objectAssign {α : Type} (target source : List (String × α)) : List (String × α) :=
  source.foldl (fun acc kv => upsert acc kv.1 kv.2) target

/-- The embedding of `getAllConfigFromDatabase` (main.js lines 134-151):
fold over the included types in list order (the cooperative scheduling of
the source resolves the provider reads in that order); each step performs
`databaseConfigs = Object.assign(config, databaseConfigs)` with `config` the
provider snapshot of the current type. -/
def getAllConfigFromDatabase (pol : Policy) (providers : String → List (String × Json))
    (configType : Option String) : List (String × Json) :=
  pol.include_.foldl
    (fun databaseConfigs type =>
      if (match configType with
          | some t => t != type
          | none => false) then databaseConfigs
      else objectAssign (providers type) databaseConfigs)
    []

/-- A change of the Diff Engine's change-set. -/
inductive Change where
  | created : Json → Change
  | updated : Json → Change
  | deleted : Change

/-- Modelled from the spec: the Diff Engine `difference` is loaded from
`src/utils/getObjectDiff` (main.js line 5), a file of this repository that is
not present under `src/`.  Spec section 4.3: a key only in the new snapshot
yields `created` with the new content, a key in both snapshots with unequal
content yields `updated` with the new content, a key only in the old snapshot
yields `deleted`, and a key in both with deeply-equal content yields no
change.  Deep equality is modelled as structural equality on `Json`. -/
def difference (oldSnapshot newSnapshot : List (String × Json)) :
    List (String × Change) :=
  (newSnapshot.filterMap fun kv =>
    match lookupA oldSnapshot kv.1 with
    | none => some (kv.1, Change.created kv.2)
    | some v => if beqJson v kv.2 then none else some (kv.1, Change.updated kv.2)) ++
  (oldSnapshot.filterMap fun kv =>
    match lookupA newSnapshot kv.1 with
    | none => some (kv.1, Change.deleted)
    | some _ => none)

/-- The type part of a composite key as computed by `importAllConfig`
(main.js line 165): the part before the first dot. -/
def keyType (key : String) : String :=
  (splitDotS key).headD ""

/-- The name part of a composite key as computed by `importAllConfig`
(main.js line 166): everything after the first dot.  For a key with no dot
the source computes the JavaScript value `undefined`; the model returns the
empty string, a case no composite key built by the snapshot readers
produces. -/
def keyName (key : String) : String :=
  String.intercalate "." (splitDotS key).tail

/-- The embedding of `importSingleConfig` (main.js lines 198-206): the
result is the provider invocation `services[configType].importSingle(name,
contents)` the call performs, or `none` when the key is excluded and the
function returns without any effect. -/
def importSingleConfig (pol : Policy) (fs : FS) (configType configName : String) :
    Option (String × String × Json) :=
  if (configType ++ "." ++ configName) ∈ pol.exclude then none
  else some (configType, configName, readConfigFile pol fs configType configName)

/-- The file-side snapshot read by `importAllConfig` (main.js line 159): the
call passes no argument, so the type filter of `getAllConfigFromFiles` is
`null` regardless of the filter `importAllConfig` itself received. -/
def importAllFileConfig (pol : Policy) (fs : FS) : Except String (List (String × Json)) :=
  getAllConfigFromFiles pol fs none

/-- The database-side snapshot read by `importAllConfig` (main.js line 160):
the call passes no argument, so the type filter of
`getAllConfigFromDatabase` is `null` regardless of the filter
`importAllConfig` itself received. -/
def importAllDatabaseConfig (pol : Policy) (providers : String → List (String × Json)) :
    List (String × Json) :=
  getAllConfigFromDatabase pol providers none

/-- The embedding of `importAllConfig` (main.js lines 158-174): read both
snapshots with no type filter, diff them, and for every diff key whose type
part matches the requested type (when one was requested) delegate to
`importSingleConfig`.  The result is the list of provider invocations
performed. -/
def importAllConfig (pol : Policy) (fs : FS) (providers : String → List (String × Json))
    (configType : Option String) : Except String (List (String × String × Json)) :=
  match importAllFileConfig pol fs with
  | Except.error e => Except.error e
  | Except.ok fileConfig =>
    let databaseConfig := importAllDatabaseConfig pol providers
    let diff := difference databaseConfig fileConfig
    Except.ok ((diff.map Prod.fst).filterMap fun file =>
      if (match configType with
          | some t => t != keyType file
          | none => false) then none
      else importSingleConfig pol fs (keyType file) (keyName file))

/-- The embedding of `exportSingleConfig` (main.js lines 215-217): the body
of the source function is empty, so the file store is unchanged and no
provider invocation is performed. -/
def exportSingleConfig (configType configName : String) (fs : FS) :
    FS × List (String × String × Json) :=
  (fs, [])

/-- Policy of the C1 counterexample: the pair `("api", "foo:bar")` is
excluded by its composite key. -/
def polC1 : Policy :=
  { include_ := ["api"], exclude := ["api.foo:bar"], destination := "d/", minify := false }

/-- File store of the C1 counterexample: the excluded pair is on disk under
its encoded file name `api.foo#bar.json`. -/
def fsC1 : FS :=
  { destExists := true, files := [("api.foo#bar.json", "1")] }

/-- Policy of the C1 witness: the excluded name contains no colon. -/
def polW1 : Policy :=
  { include_ := ["api"], exclude := ["api.foo"], destination := "d/", minify := false }

/-- File store of the C1 witness: the excluded pair is on disk. -/
def fsW1 : FS :=
  { destExists := true, files := [("api.foo.json", "1")] }

/-- Policy of the C3 counterexample and witness: two included types. -/
def polC3 : Policy :=
  { include_ := ["s1", "s2"], exclude := [], destination := "d/", minify := false }

/-- Providers of the C3 counterexample and witness: both included types
contribute an entry under the same composite key. -/
def provC3 : String → List (String × Json) := fun t =>
  if t = "s1" then [("shared.key", Json.num 1)]
  else if t = "s2" then [("shared.key", Json.num 2)]
  else []

/-- Policy of the C4 counterexample: two included types. -/
def polC4 : Policy :=
  { include_ := ["a", "b"], exclude := [], destination := "d/", minify := false }

/-- File store of the C4 counterexample: one file of type `b`. -/
def fsC4 : FS :=
  { destExists := true, files := [("b.x.json", "1")] }

/-- Providers of the C4 counterexample: an empty database. -/
def provC4 : String → List (String × Json) := fun _ => []

/-- Policy of the C4 witness. -/
def polW4 : Policy :=
  { include_ := ["a"], exclude := [], destination := "d/", minify := false }

/-- File store of the C4 witness: one file of type `a`. -/
def fsW4 : FS :=
  { destExists := true, files := [("a.x.json", "1")] }

/-- Providers of the C4 witness: an empty database. -/
def provW4 : String → List (String × Json) := fun _ => []

/-- Policy of the C5 counterexample and witness: nothing excluded. -/
def polC5 : Policy :=
  { include_ := ["a"], exclude := [], destination := "d/", minify := false }

/-- File store of the C5 counterexample and witness. -/
def fsC5 : FS :=
  { destExists := true, files := [] }

/-- Policy of the C6 witness. -/
def polC6 : Policy :=
  { include_ := ["a"], exclude := [], destination := "d/", minify := false }

/-- File store of the C6 witness: the destination directory is absent. -/
def fsC6 : FS :=
  { destExists := false, files := [("a.x.json", "1")] }

/-- Policy of the C7 witness. -/
def polC7 : Policy :=
  { include_ := ["t"], exclude := [], destination := "d/", minify := false }

/-- File store of the C7 witness: no files. -/
def fsC7 : FS :=
  { destExists := true, files := [] }

/-- Policy of the C8 witness. -/
def polC8 : Policy :=
  { include_ := ["t"], exclude := [], destination := "d/", minify := false }

/-- File store of the C8 witness: the destination directory does not yet
exist. -/
def fsC8 : FS :=
  { destExists := false, files := [] }

/-- Policy of the C10 witness: nothing excluded. -/
def polC10 : Policy :=
  { include_ := ["t"], exclude := [], destination := "d/", minify := false }

/-- File store of the C10 witness: the config file of the imported pair is
absent. -/
def fsC10 : FS :=
  { destExists := true, files := [] }

theorem lookupA_upsert_self {α : Type} (m : List (String × α)) (k : String) (v : α) :
    lookupA (upsert m k v) k = some v := by
  induction m with
  | nil => simp [upsert, lookupA]
  | cons kv rest ih =>
    by_cases h : kv.1 = k
    · simp [upsert, h, lookupA]
    · simp [upsert, h, lookupA, ih]

theorem lookupA_upsert_ne {α : Type} (m : List (String × α)) (k p : String) (v : α)
    (h : p ≠ k) : lookupA (upsert m k v) p = lookupA m p := by
  have h' : k ≠ p := Ne.symm h
  induction m with
  | nil => simp [upsert, lookupA, h']
  | cons kv rest ih =>
    by_cases hk : kv.1 = k
    · simp [upsert, lookupA, hk, h']
    · simp [upsert, lookupA, hk, ih]

theorem lookupA_eq_none_of_not_mem {α : Type} (m : List (String × α)) (k : String)
    (h : k ∉ m.map Prod.fst) : lookupA m k = none := by
  induction m with
  | nil => rfl
  | cons kv rest ih =>
    simp only [List.map, List.mem_cons] at h
    push_neg at h
    have h1 : kv.1 ≠ k := Ne.symm h.1
    simp [lookupA, h1, ih h.2]

theorem readConfigFile_missing (pol : Policy) (fs : FS) (configType configName : String)
    (h : lookupA fs.files (configType ++ "." ++ encodeName configName ++ ".json") = none) :
    readConfigFile pol fs configType configName = Json.null := by
  simp only [readConfigFile]
  rw [h]

/-- C5, counterexample: an underlying unlink failure on a non-excluded key
makes `deleteConfigFile` reject instead of returning normally —
`fs.unlinkSync` (main.js line 64) has no error handler, refuting the claim
that delete failures are silently swallowed. -/
theorem c5_counterexample :
    deleteConfigFile polC5 fsC5 false "a.b" = Except.error "unlink failed" := rfl

/-- C5, amended: every underlying write failure in `writeConfigFile` is
swallowed (the operation resolves normally), but an underlying delete
failure in `deleteConfigFile` on a non-excluded key is propagated to the
caller as a rejection. -/
theorem c5_write_swallowed_delete_propagates :
    (∀ (pol : Policy) (fs : FS) (configType configName : String) (fileContents : Json),
        ∃ fs', writeConfigFile pol fs false configType configName fileContents = Except.ok fs') ∧
    (∀ (pol : Policy) (fs : FS) (configName : String),
        configName ∉ pol.exclude →
        deleteConfigFile pol fs false configName = Except.error "unlink failed") := by
  constructor
  · intro pol fs configType configName fileContents
    by_cases h : (configType ++ "." ++ configName) ∈ pol.exclude
    · exact ⟨fs, by simp [writeConfigFile, h]⟩
    · exact ⟨{ fs with destExists := true }, by simp [writeConfigFile, h]⟩
  · intro pol fs configName h
    simp [deleteConfigFile, h]

/-- C5, witness of the amended theorem at a concrete input. -/
theorem c5_witness :
    (∃ fs', writeConfigFile polC5 fsC5 false "t" "n" Json.null = Except.ok fs') ∧
    deleteConfigFile polC5 fsC5 false "x.y" = Except.error "unlink failed" :=
  ⟨c5_write_swallowed_delete_propagates.1 polC5 fsC5 "t" "n" Json.null,
   c5_write_swallowed_delete_propagates.2 polC5 fsC5 "x.y" (by decide)⟩

/-- C6: when the destination directory does not exist,
`getAllConfigFromFiles` returns the empty mapping and raises no error
(main.js lines 95-97). -/
theorem c6_missing_destination_empty (pol : Policy) (fs : FS) (configType : Option String)
    (h : fs.destExists = false) :
    getAllConfigFromFiles pol fs configType = Except.ok [] := by
  simp [getAllConfigFromFiles, h]

/-- C6, witness at a concrete input. -/
theorem c6_witness : getAllConfigFromFiles polC6 fsC6 none = Except.ok [] :=
  c6_missing_destination_empty polC6 fsC6 none rfl

/-- C7: when the file at the encoded path does not exist, `readConfigFile`
returns `null`; the not-found rejection is caught by the final `.catch`
(main.js lines 83-85) and never propagated — the embedding is a total
function. -/
theorem c7_read_missing_null (pol : Policy) (fs : FS) (configType configName : String)
    (h : lookupA fs.files (configType ++ "." ++ encodeName configName ++ ".json") = none) :
    readConfigFile pol fs configType configName = Json.null :=
  readConfigFile_missing pol fs configType configName h

/-- C7, witness at a concrete input. -/
theorem c7_witness : readConfigFile polC7 fsC7 "t" "n" = Json.null :=
  c7_read_missing_null polC7 fsC7 "t" "n" rfl

/-- C8: for a non-excluded pair and a successful write, `writeConfigFile`
persists exactly one file, keyed `{type}.{encodedName}.json` inside the
destination directory, whose content is the two-space-indented
`JSON.stringify` output when minify is false and the compact output when
minify is true; every other file of the store is unchanged, and the
destination directory exists afterwards. -/
theorem c8_write_persists_file (pol : Policy) (fs : FS) (configType configName : String)
    (fileContents : Json) (h : (configType ++ "." ++ configName) ∉ pol.exclude) :
    ∃ fs', writeConfigFile pol fs true configType configName fileContents = Except.ok fs' ∧
      fs'.destExists = true ∧
      lookupA fs'.files (configType ++ "." ++ encodeName configName ++ ".json") =
        some (if pol.minify = false then stringifyPretty fileContents
              else stringifyCompact fileContents) ∧
      ∀ p, p ≠ configType ++ "." ++ encodeName configName ++ ".json" →
        lookupA fs'.files p = lookupA fs.files p := by
  refine ⟨{ destExists := true,
            files := upsert fs.files (configType ++ "." ++ encodeName configName ++ ".json")
              (if pol.minify = false then stringifyPretty fileContents
               else stringifyCompact fileContents) }, ?_, rfl, ?_, ?_⟩
  · simp [writeConfigFile, h]
  · exact lookupA_upsert_self fs.files _ _
  · intro p hp
    exact lookupA_upsert_ne fs.files _ p _ hp

/-- C8, witness at a concrete input. -/
theorem c8_witness :
    ∃ fs', writeConfigFile polC8 fsC8 true "t" "n" (Json.num 5) = Except.ok fs' ∧
      fs'.destExists = true ∧
      lookupA fs'.files ("t" ++ "." ++ encodeName "n" ++ ".json") =
        some (if polC8.minify = false then stringifyPretty (Json.num 5)
              else stringifyCompact (Json.num 5)) ∧
      ∀ p, p ≠ "t" ++ "." ++ encodeName "n" ++ ".json" →
        lookupA fs'.files p = lookupA fsC8.files p :=
  c8_write_persists_file polC8 fsC8 "t" "n" (Json.num 5) (by decide)

/-- C9: `exportSingleConfig` performs no side effect — the file store is
returned unchanged and no provider invocation is made (the source body,
main.js lines 215-217, is empty). -/
theorem c9_export_single_noop (configType configName : String) (fs : FS) :
    exportSingleConfig configType configName fs = (fs, []) := rfl

/-- C10: for a non-excluded pair whose config file is absent,
`importSingleConfig` does not no-op: it still performs the provider call
`importSingle(configName, fileContents)` with the `null` returned by
`readConfigFile` forwarded as content (main.js lines 203-205). -/
theorem c10_import_missing_forwards_null (pol : Policy) (fs : FS)
    (configType configName : String)
    (hex : (configType ++ "." ++ configName) ∉ pol.exclude)
    (hfile : lookupA fs.files (configType ++ "." ++ encodeName configName ++ ".json") = none) :
    importSingleConfig pol fs configType configName =
      some (configType, configName, Json.null) := by
  simp [importSingleConfig, hex,
    readConfigFile_missing pol fs configType configName hfile]

/-- C10, witness at a concrete input. -/
theorem c10_witness :
    importSingleConfig polC10 fsC10 "t" "n" = some ("t", "n", Json.null) :=
  c10_import_missing_forwards_null polC10 fsC10 "t" "n" (by decide) rfl

theorem map_dch_ech (l : List Char) (h : '#' ∉ l) : (l.map ech).map dch = l := by
  induction l with
  | nil => rfl
  | cons c t ih =>
    have h' : ('#' : Char) ≠ c ∧ '#' ∉ t := by
      simpa [List.mem_cons, not_or] using h
    simp only [List.map]
    rw [ih h'.2]
    have hc : dch (ech c) = c := by
      by_cases h1 : c = ':'
      · simp [ech, dch, h1]
      · simp [ech, dch, h1, Ne.symm h'.1]
    rw [hc]

/-- C2, counterexample: the spec's example is wrong about the code —
`"api::foo.bar".replace(/:/g, "#")` replaces both colons, producing
`"api##foo.bar"`, not `"api::foo#bar"`. -/
theorem c2_counterexample :
    encodeName "api::foo.bar" ≠ "api::foo#bar" ∧
    encodeName "api::foo.bar" = "api##foo.bar" := by
  constructor
  · decide
  · decide

/-- C2, amended: for every name containing no `#`, encoding (every `:`
becomes `#`) followed by decoding (every `#` becomes `:`) yields the
original name; in particular `"api::foo.bar"` encodes to the file key
segment `"api##foo.bar"`. -/
theorem c2_roundtrip :
    (∀ s : String, '#' ∉ s.data → decodeName (encodeName s) = s) ∧
    encodeName "api::foo.bar" = "api##foo.bar" := by
  constructor
  · intro s h
    show (⟨(s.data.map ech).map dch⟩ : String) = s
    rw [map_dch_ech s.data h]
  · decide

/-- C2, witness of the amended theorem at a concrete input. -/
theorem c2_witness : decodeName (encodeName "api::foo.bar") = "api::foo.bar" :=
  c2_roundtrip.1 "api::foo.bar" (by decide)

theorem lookupA_objectAssign {α : Type} (src tgt : List (String × α)) (k : String)
    (hnd : (src.map Prod.fst).Nodup) :
    lookupA (objectAssign tgt src) k =
      (match lookupA src k with
       | some v => some v
       | none => lookupA tgt k) := by
  induction src generalizing tgt with
  | nil => simp [objectAssign, lookupA]
  | cons kv rest ih =>
    simp only [List.map, List.nodup_cons] at hnd
    have step : objectAssign tgt (kv :: rest) = objectAssign (upsert tgt kv.1 kv.2) rest := rfl
    rw [step, ih (upsert tgt kv.1 kv.2) hnd.2]
    by_cases hk : kv.1 = k
    · have hrest : lookupA rest k = none :=
        lookupA_eq_none_of_not_mem rest k (hk ▸ hnd.1)
      simp [lookupA, hk, hrest, hk ▸ lookupA_upsert_self tgt kv.1 kv.2]
    · have hk' : k ≠ kv.1 := Ne.symm hk
      simp [lookupA, hk, lookupA_upsert_ne tgt kv.1 k kv.2 hk']

/-- C3, counterexample: with include order `["s1", "s2"]` and both types
contributing an entry under the composite key `"shared.key"`, the snapshot
returned by `getAllConfigFromDatabase` holds the entry of `s1`, the type
processed earlier — not the later type's entry as the claim states.
`Object.assign(config, databaseConfigs)` (main.js line 144) copies the
previously accumulated entries over the new type's. -/
theorem c3_counterexample :
    provC3 "s2" = [("shared.key", Json.num 2)] ∧
    getAllConfigFromDatabase polC3 provC3 none = [("shared.key", Json.num 1)] :=
  ⟨rfl, rfl⟩

/-- C3, amended: when two included types contribute entries under the same
composite key, the entry of the type processed earlier is the one present in
the returned snapshot (first-write-wins by include-list iteration order):
with include list `[t1, t2]`, any key of the first type's snapshot keeps the
first type's value. -/
theorem c3_earlier_type_wins (pol : Policy) (providers : String → List (String × Json))
    (t1 t2 k : String) (v1 : Json)
    (hinc : pol.include_ = [t1, t2])
    (hnd : ((providers t1).map Prod.fst).Nodup)
    (hk : lookupA (providers t1) k = some v1) :
    lookupA (getAllConfigFromDatabase pol providers none) k = some v1 := by
  have e : getAllConfigFromDatabase pol providers none
      = objectAssign (providers t2) (objectAssign (providers t1) []) := by
    unfold getAllConfigFromDatabase
    rw [hinc]
    rfl
  rw [e]
  have e1 : objectAssign (providers t1) [] = providers t1 := rfl
  rw [e1, lookupA_objectAssign (providers t1) (providers t2) k hnd, hk]

/-- C3, witness of the amended theorem at a concrete input. -/
theorem c3_witness :
    lookupA (getAllConfigFromDatabase polC3 provC3 none) "shared.key" = some (Json.num 1) :=
  c3_earlier_type_wins polC3 provC3 "s1" "s2" "shared.key" (Json.num 1) rfl (by decide) rfl

theorem importSingleConfig_fst (pol : Policy) (fs : FS) (configType configName : String)
    (c : String × String × Json)
    (h : importSingleConfig pol fs configType configName = some c) : c.1 = configType := by
  unfold importSingleConfig at h
  by_cases hex : (configType ++ "." ++ configName) ∈ pol.exclude
  · rw [if_pos hex] at h
    exact absurd h (by simp)
  · rw [if_neg hex] at h
    simp only [Option.some.injEq] at h
    rw [← h]

/-- C4, counterexample: a call `importAllConfig(some "a")` computes its
file-side snapshot through `importAllFileConfig`, which passes no type
filter (main.js line 159), and on this input that snapshot contains the
entry `"b.x"` whose type `"b"` differs from the requested type `"a"` —
refuting the claim that both snapshots used for the diff are read with the
type filter applied. -/
theorem c4_counterexample :
    importAllFileConfig polC4 fsC4 = Except.ok [("b.x", Json.num 1)] ∧
    keyType "b.x" ≠ "a" ∧
    importAllConfig polC4 fsC4 provC4 (some "a") = Except.ok [] :=
  ⟨rfl, by decide, rfl⟩

/-- C4, amended: `importAllConfig` reads both snapshots with no type filter
(`importAllFileConfig` and `importAllDatabaseConfig` embed the unfiltered
calls of main.js lines 159-160); the requested type is instead applied to
each diff key before importing, so every provider invocation performed by
`importAllConfig (some t)` is for a key whose type part equals `t`. -/
theorem c4_per_key_type_filter (pol : Policy) (fs : FS)
    (providers : String → List (String × Json)) (t : String)
    (calls : List (String × String × Json))
    (h : importAllConfig pol fs providers (some t) = Except.ok calls) :
    ∀ c ∈ calls, c.1 = t := by
  intro c hc
  unfold importAllConfig at h
  cases hfc : importAllFileConfig pol fs with
  | error e =>
    rw [hfc] at h
    exact absurd h (by simp)
  | ok fileConfig =>
    rw [hfc] at h
    simp only [Except.ok.injEq] at h
    subst h
    rcases List.mem_filterMap.mp hc with ⟨key, hmem, hkey⟩
    by_cases hb : (t != keyType key) = true
    · rw [if_pos hb] at hkey
      exact absurd hkey (by simp)
    · rw [if_neg hb] at hkey
      have ht : t = keyType key := by
        simpa using hb
      rw [ht]
      exact importSingleConfig_fst pol fs (keyType key) (keyName key) c hkey

/-- C4, witness of the amended theorem at a concrete input on which one
provider invocation is performed. -/
theorem c4_witness :
    importAllConfig polW4 fsW4 provW4 (some "a") = Except.ok [("a", "x", Json.num 1)] ∧
    (("a", "x", Json.num 1) : String × String × Json).1 = "a" :=
  ⟨rfl,
   c4_per_key_type_filter polW4 fsW4 provW4 "a" [("a", "x", Json.num 1)] rfl
     ("a", "x", Json.num 1) (List.Mem.head _)⟩

theorem map_dch_eq_self (l : List Char) (h : ':' ∉ l.map dch) : l.map dch = l := by
  induction l with
  | nil => rfl
  | cons c t ih =>
    simp only [List.map] at h ⊢
    have h' : (':' : Char) ≠ dch c ∧ ':' ∉ t.map dch := by
      simpa [List.mem_cons, not_or] using h
    have hc : dch c = c := by
      by_cases h1 : c = '#'
      · exfalso
        apply h'.1
        simp [dch, h1]
      · simp [dch, h1]
    rw [hc, ih h'.2]

theorem decodeName_eq_self (s : String) (h : ':' ∉ (decodeName s).data) :
    decodeName s = s := by
  have hd : (decodeName s).data = s.data.map dch := rfl
  rw [hd] at h
  show (⟨s.data.map dch⟩ : String) = s
  rw [map_dch_eq_self s.data h]

theorem not_excluded_of_skipEntry_false (pol : Policy) (configType : Option String)
    (type name : String) (h : skipEntry pol configType type name = false) :
    (type ++ "." ++ name) ∉ pol.exclude := by
  unfold skipEntry at h
  simp only [Bool.or_eq_false_iff, decide_eq_false_iff_not] at h
  exact h.2

theorem processFile_some (pol : Policy) (fs : FS) (configType : Option String)
    (file : String) (kv : String × Json)
    (h : processFile pol fs configType file = some (some kv)) :
    ∃ type name, splitTypeName file = some (type, name) ∧
      skipEntry pol configType type name = false ∧
      kv.1 = type ++ "." ++ decodeName name := by
  unfold processFile at h
  cases hsp : splitTypeName file with
  | none =>
    simp only [hsp] at h
    exact Option.noConfusion h
  | some tn =>
    simp only [hsp] at h
    cases hsk : skipEntry pol configType tn.1 tn.2 with
    | true =>
      simp [hsk] at h
    | false =>
      rw [if_neg (by simp [hsk])] at h
      simp only [Option.some.injEq] at h
      exact ⟨tn.1, tn.2, rfl, hsk, by rw [← h]⟩

theorem configFilesGo_excluded (pol : Policy) (fs : FS) (configType : Option String)
    (K : String) (hcolon : ':' ∉ K.data) (hEx : K ∈ pol.exclude) :
    ∀ (files : List String) (acc : List (String × Json)),
      lookupA acc K = none →
      ∀ m, configFilesGo pol fs configType files acc = Except.ok m →
        lookupA m K = none := by
  intro files
  induction files with
  | nil =>
    intro acc hacc m hm
    simp only [configFilesGo, Except.ok.injEq] at hm
    rw [← hm]
    exact hacc
  | cons file rest ih =>
    intro acc hacc m hm
    simp only [configFilesGo] at hm
    cases hpf : processFile pol fs configType file with
    | none =>
      rw [hpf] at hm
      exact absurd hm (by simp)
    | some o =>
      cases o with
      | none =>
        rw [hpf] at hm
        exact ih acc hacc m hm
      | some kv =>
        rw [hpf] at hm
        refine ih (upsert acc kv.1 kv.2) ?_ m hm
        obtain ⟨type, name, hsp, hsk, hk1⟩ := processFile_some pol fs configType file kv hpf
        have hne : K ≠ kv.1 := by
          intro he
          rw [hk1] at he
          have hdn : ':' ∉ (decodeName name).data := by
            rw [he] at hcolon
            simp only [String.data_append, List.mem_append, not_or] at hcolon
            exact hcolon.2
          have hself : decodeName name = name := decodeName_eq_self name hdn
          rw [hself] at he
          exact not_excluded_of_skipEntry_false pol configType type name hsk (he ▸ hEx)
        rw [lookupA_upsert_ne acc kv.1 K kv.2 hne]
        exact hacc

/-- C1, counterexample: the pair `("api", "foo:bar")` has its composite key
`"api.foo:bar"` in the exclude set, yet with the file `api.foo#bar.json` on
disk the pair appears in the mapping returned by `getAllConfigFromFiles` —
the exclusion check of main.js line 114 compares the exclude list against
the still-encoded file-name segment `foo#bar`, while the emitted key uses
the decoded name `foo:bar`. -/
theorem c1_counterexample :
    ("api.foo:bar" ∈ polC1.exclude) ∧
    getAllConfigFromFiles polC1 fsC1 none = Except.ok [("api.foo:bar", Json.num 1)] :=
  ⟨by decide, rfl⟩

/-- C1, amended: `writeConfigFile`, `importSingleConfig` and
`deleteConfigFile` on an excluded key are silent no-ops exactly as claimed;
for `getAllConfigFromFiles`, an excluded pair never appears provided its
composite key contains no colon (the code checks the exclude list against
the encoded on-disk name, which coincides with the decoded name exactly in
that case). -/
theorem c1_exclusion :
    (∀ (pol : Policy) (fs : FS) (configType : Option String) (type name : String)
        (m : List (String × Json)),
        ':' ∉ (type ++ "." ++ name).data →
        (type ++ "." ++ name) ∈ pol.exclude →
        getAllConfigFromFiles pol fs configType = Except.ok m →
        lookupA m (type ++ "." ++ name) = none) ∧
    (∀ (pol : Policy) (fs : FS) (writeOk : Bool) (type name : String) (fileContents : Json),
        (type ++ "." ++ name) ∈ pol.exclude →
        writeConfigFile pol fs writeOk type name fileContents = Except.ok fs) ∧
    (∀ (pol : Policy) (fs : FS) (type name : String),
        (type ++ "." ++ name) ∈ pol.exclude →
        importSingleConfig pol fs type name = none) ∧
    (∀ (pol : Policy) (fs : FS) (unlinkOk : Bool) (compositeKey : String),
        compositeKey ∈ pol.exclude →
        deleteConfigFile pol fs unlinkOk compositeKey = Except.ok fs) := by
  refine ⟨?_, ?_, ?_, ?_⟩
  · intro pol fs configType type name m hcolon hex hok
    unfold getAllConfigFromFiles at hok
    by_cases hd : fs.destExists = false
    · rw [if_pos hd] at hok
      simp only [Except.ok.injEq] at hok
      rw [← hok]
      rfl
    · rw [if_neg hd] at hok
      exact configFilesGo_excluded pol fs configType _ hcolon hex _ [] rfl m hok
  · intro pol fs writeOk type name fileContents hex
    simp [writeConfigFile, hex]
  · intro pol fs type name hex
    simp [importSingleConfig, hex]
  · intro pol fs unlinkOk compositeKey hex
    simp [deleteConfigFile, hex]

/-- C1, witness of the amended theorem at a concrete input: the excluded
colon-free pair `("api", "foo")` is absent from the snapshot even though
`api.foo.json` is on disk. -/
theorem c1_witness :
    lookupA ([] : List (String × Json)) ("api" ++ "." ++ "foo") = none :=
  c1_exclusion.1 polW1 fsW1 none "api" "foo" [] (by decide) (by decide) rfl

end ConfigSync
